import Mathlib

/-!
Shallow embedding of the checkpoint-indexing engine of the Crozz-Coin
repository (directory sui-stack-hello-world/indexer/src), covering the
ingestion layer (ingestion.rs: Regulator, Broadcaster, watermark store,
subscriber registry) and the processing layer (processor.rs:
SequentialPipeline, ConcurrentPipeline, PipelineExecutor).

Machine integers (u64, usize) are modelled as Nat: all quantities involved
are counters far below 2^64, and every arithmetic expression in the
embedded code is non-underflowing in the same way as in the source
(in get_next_batch the expression start + batch_size - 1 has
start >= 1, so the u64 subtraction never underflows and agrees with
truncated Nat subtraction).

JSON record values (serde_json::Value) are opaque to the engine: the
pipeline only clones and concatenates them, so they are modelled by an
opaque token type.
-/

namespace CrozzIndexer

/-- Opaque stand-in for serde_json::Value; the engine never inspects it. -/
abbrev JsonValue := String

/-- types.rs: CertifiedCheckpointSummary. -/
structure CertifiedCheckpointSummary where
  sequence_number : Nat
  checkpoint_digest : String
  timestamp_ms : Nat
  network_name : String
  previous_checkpoint_digest : Option String
  epoch : Nat
  reference_gas_price : Nat
  total_transactions : Nat
  total_gas_units : Nat
  deriving DecidableEq, Repr

/-- types.rs: CheckpointContents. -/
structure CheckpointContents where
  transactions : List String
  user_signatures : List String
  deriving DecidableEq, Repr

/-- types.rs: CheckpointTransaction; the engine never inspects the
transaction payload (only the example processor does), so the payload
beyond digest and sender is kept opaque. -/
structure CheckpointTransaction where
  digest : String
  sender : String
  deriving DecidableEq, Repr

/-- types.rs: CheckpointData. -/
structure CheckpointData where
  checkpoint_summary : CertifiedCheckpointSummary
  checkpoint_contents : CheckpointContents
  transactions : List CheckpointTransaction
  deriving DecidableEq, Repr

/-- types.rs: ProcessingMetrics. -/
structure ProcessingMetrics where
  transaction_count : Nat := 0
  event_count : Nat := 0
  object_change_count : Nat := 0
  processing_duration_ms : Nat := 0
  records_created : Nat := 0
  deriving DecidableEq, Repr

/-- types.rs: ProcessedData. -/
structure ProcessedData where
  checkpoint_sequence : Nat
  records : List JsonValue
  metrics : ProcessingMetrics
  deriving DecidableEq, Repr

/-- types.rs: Watermark. -/
structure Watermark where
  checkpoint_sequence : Nat := 0
  timestamp_ms : Nat := 0
  updated_at : Nat := 0
  deriving DecidableEq, Repr

/-- ingestion.rs: IngestionMessage. -/
inductive IngestionMessage where
  | Checkpoint (cp : CheckpointData)
  | Error (msg : String)
  | Paused
  | Resumed
  | Shutdown
  deriving DecidableEq, Repr

/-- ingestion.rs lines 40-70: InMemoryWatermarkStore, a map from
pipeline id to sequence, modelled as an association list. -/
def WatermarkMap := List (String × Nat)

/-- ingestion.rs lines 54-58: update_watermark inserts or overwrites. -/
def InMemoryWatermarkStore.update_watermark (m : WatermarkMap)
    (pipeline_id : String) (sequence : Nat) : WatermarkMap :=
  (pipeline_id, sequence) ::
    (m.filter (fun e => decide (e.1 ≠ pipeline_id)))

/-- ingestion.rs lines 60-63: get_watermark defaults to 0 when absent. -/
def InMemoryWatermarkStore.get_watermark (m : WatermarkMap)
    (pipeline_id : String) : Nat :=
  match m.find? (fun e => decide (e.1 = pipeline_id)) with
  | some e => e.2
  | none => 0

/-- ingestion.rs lines 65-69: reset_watermark removes the entry. -/
def InMemoryWatermarkStore.reset_watermark (m : WatermarkMap)
    (pipeline_id : String) : WatermarkMap :=
  m.filter (fun e => decide (e.1 ≠ pipeline_id))

/-- ingestion.rs lines 72-80: Regulator state. The single shared field
high_watermark is the only progress record the Regulator keeps; there is
no per-pipeline map. -/
structure Regulator where
  high_watermark : Nat
  latest_checkpoint : Nat
  batch_size : Nat
  deriving DecidableEq, Repr

/-- ingestion.rs lines 83-89: Regulator::new. -/
def Regulator.new (batch_size : Nat) : Regulator :=
  { high_watermark := 0, latest_checkpoint := 0, batch_size := batch_size }

/-- ingestion.rs lines 92-97: Regulator::update_watermark raises
high_watermark to the reported checkpoint when that is larger. -/
def Regulator.update_watermark (r : Regulator) (checkpoint : Nat) :
    Regulator :=
  if checkpoint > r.high_watermark then
    { r with high_watermark := checkpoint }
  else r

/-- ingestion.rs lines 100-108: Regulator::get_next_batch. -/
def Regulator.get_next_batch (r : Regulator) : Nat × Nat :=
  let start := r.high_watermark + 1
  (start, min (start + r.batch_size - 1) r.latest_checkpoint)

/-- ingestion.rs lines 111-114: Regulator::set_latest_checkpoint. -/
def Regulator.set_latest_checkpoint (r : Regulator) (checkpoint : Nat) :
    Regulator :=
  { r with latest_checkpoint := checkpoint }

/-- ingestion.rs lines 117-121: Regulator::has_more_data. -/
def Regulator.has_more_data (r : Regulator) : Bool :=
  r.high_watermark < r.latest_checkpoint

/-- The fetch-window decision of one iteration of Broadcaster::run
(ingestion.rs lines 197 and 207): a window is produced exactly when
has_more_data holds, and then it is the pair from get_next_batch. -/
def Regulator.next_window (r : Regulator) : Option (Nat × Nat) :=
  if r.has_more_data then some r.get_next_batch else none

/-- Whether a produced window contains a given sequence number. -/
def windowContains (w : Option (Nat × Nat)) (seq : Nat) : Prop :=
  match w with
  | some p => p.1 ≤ seq ∧ seq ≤ p.2
  | none => False

instance (w : Option (Nat × Nat)) (seq : Nat) :
    Decidable (windowContains w seq) := by
  unfold windowContains
  cases w with
  | none => exact inferInstanceAs (Decidable False)
  | some p => exact inferInstanceAs (Decidable (_ ∧ _))

/-- data_source.rs: the DataSourceProvider operations the Broadcaster
uses, as pure response functions (each call returns a Result). -/
structure DataSource where
  get_checkpoint : Nat → Except String CheckpointData
  verify_checkpoint : CheckpointData → Except String Bool

/-- ingestion.rs lines 168-173: Broadcaster::register_subscriber appends
the id only when it is not already present. -/
def Broadcaster.register_subscriber (subs : List String)
    (subscriber_id : String) : List String :=
  if subs.contains subscriber_id then subs else subs ++ [subscriber_id]

/-- ingestion.rs lines 176-179: Broadcaster::unregister_subscriber keeps
exactly the entries different from the id. -/
def Broadcaster.unregister_subscriber (subs : List String)
    (subscriber_id : String) : List String :=
  subs.filter (fun s => decide (s ≠ subscriber_id))

/-- ingestion.rs lines 211-236: the body of the fetch loop of
Broadcaster::run for one sequence number: on fetch success the message
is sent only when verification returns Ok(true); on fetch failure an
Error message is sent. -/
def Broadcaster.fetchOne (ds : DataSource) (sequence : Nat) :
    List IngestionMessage :=
  match ds.get_checkpoint sequence with
  | .ok checkpoint =>
    match ds.verify_checkpoint checkpoint with
    | .ok true => [IngestionMessage.Checkpoint checkpoint]
    | _ => []
  | .error e =>
    [IngestionMessage.Error
      ("Failed to fetch checkpoint " ++ toString sequence ++ ": " ++ e)]

/-- ingestion.rs line 210: the fetch loop over sequence start..=stop,
collecting the messages sent on the broadcast channel in order. -/
def Broadcaster.broadcastWindow (ds : DataSource) (start stop : Nat) :
    List IngestionMessage :=
  (List.range' start (stop + 1 - start)).flatMap (Broadcaster.fetchOne ds)

/-- ingestion.rs lines 195-251: one iteration of the drive loop of
Broadcaster::run. When the Regulator reports more data, the window from
get_next_batch is fetched and broadcast and then the Regulator watermark
is advanced to the window end (when positive); otherwise the loop sleeps
and re-polls the latest checkpoint (the re-poll result is the newLatest
argument). Progress bookkeeping (counters, rate) is omitted as it feeds
no control decision. -/
def Broadcaster.runStep (ds : DataSource) (newLatest : Except String Nat)
    (r : Regulator) : Regulator × List IngestionMessage :=
  if r.has_more_data then
    let w := r.get_next_batch
    let msgs := Broadcaster.broadcastWindow ds w.1 w.2
    (if w.2 > 0 then r.update_watermark w.2 else r, msgs)
  else
    (match newLatest with
     | .ok n => r.set_latest_checkpoint n
     | .error _ => r, [])

/-- processor.rs lines 11-26: the Processor trait, as pure response
functions. -/
structure Processor where
  process : CheckpointData → Except String ProcessedData
  commit : ProcessedData → Except String Unit
  name : String

/-- The metric accumulation done by SequentialPipeline (processor.rs
lines 58-61 and 112-115): the four counter fields are added, the
duration field is untouched. -/
def ProcessingMetrics.accumulate (a b : ProcessingMetrics) :
    ProcessingMetrics :=
  { a with
    transaction_count := a.transaction_count + b.transaction_count
    event_count := a.event_count + b.event_count
    object_change_count := a.object_change_count + b.object_change_count
    records_created := a.records_created + b.records_created }

/-- State of SequentialPipeline::run (processor.rs lines 29-48): the
fields batch, watermark and total_metrics mirror the run-time state of
the source; processedCalls, commitAttempts and commits are observation
traces recording, in order, the sequence numbers of checkpoints handed
to Processor::process, the source_sequence of every Processor::commit
call made, and the combined ProcessedData of every commit call that
succeeded. -/
structure SeqState where
  batch : List ProcessedData := []
  watermark : Watermark := {}
  total_metrics : ProcessingMetrics := {}
  processedCalls : List Nat := []
  commitAttempts : List Nat := []
  commits : List ProcessedData := []
  deriving DecidableEq, Repr

/-- processor.rs lines 107-123: the combined batch built by
commit_batch: concatenated records, accumulated metrics, and the given
sequence as checkpoint_sequence. -/
def combineBatch (batch : List ProcessedData) (sequence : Nat) :
    ProcessedData :=
  { checkpoint_sequence := sequence
    records := batch.flatMap (fun d => d.records)
    metrics :=
      batch.foldl (fun acc d => acc.accumulate d.metrics) {} }

/-- processor.rs lines 105-140: SequentialPipeline::commit_batch. On a
commit error the error propagates to run (second component some e) and
the pipeline state is otherwise unchanged; on success the watermark
sequence is set to the given sequence, updated_at is set to the current
wall time (the now argument) and the batch is cleared. No WatermarkStore
is written and no Regulator is notified. -/
def SequentialPipeline.commit_batch (p : Processor) (now : Nat)
    (st : SeqState) (sequence : Nat) : SeqState × Option String :=
  let combined := combineBatch st.batch sequence
  let st := { st with commitAttempts := st.commitAttempts ++ [sequence] }
  match p.commit combined with
  | .error e => (st, some e)
  | .ok _ =>
    ({ st with
        batch := []
        watermark := { st.watermark with
          checkpoint_sequence := sequence, updated_at := now }
        commits := st.commits ++ [combined] }, none)

/-- The sequence numbers of a batch, combined as in processor.rs lines
82 and 93: the iterator maximum with default 0. -/
def batchMaxSeq (batch : List ProcessedData) : Nat :=
  batch.foldl (fun a d => max a d.checkpoint_sequence) 0

/-- processor.rs lines 51-99: handling of one received message by
SequentialPipeline::run. A Checkpoint is handed to process; on success
its output joins the batch (with metric accumulation) and a full batch
is committed under the sequence number of the checkpoint just received;
a process error only logs. Paused and Shutdown drain a non-empty batch
under the maximum sequence found in the batch. Error and Resumed only
log. The second component is the fatal error propagated out of run by
the question-mark operator, if any. -/
def SequentialPipeline.step (p : Processor) (batch_size now : Nat)
    (st : SeqState) : IngestionMessage → SeqState × Option String
  | .Checkpoint cp =>
    let st := { st with processedCalls :=
      st.processedCalls ++ [cp.checkpoint_summary.sequence_number] }
    match p.process cp with
    | .ok processed =>
      let st := { st with
        total_metrics := st.total_metrics.accumulate processed.metrics
        batch := st.batch ++ [processed] }
      if batch_size ≤ st.batch.length then
        SequentialPipeline.commit_batch p now st
          cp.checkpoint_summary.sequence_number
      else (st, none)
    | .error _ => (st, none)
  | .Error _ => (st, none)
  | .Paused =>
    if st.batch.isEmpty then (st, none)
    else SequentialPipeline.commit_batch p now st (batchMaxSeq st.batch)
  | .Resumed => (st, none)
  | .Shutdown =>
    if st.batch.isEmpty then (st, none)
    else SequentialPipeline.commit_batch p now st (batchMaxSeq st.batch)

/-- processor.rs lines 47-103: SequentialPipeline::run over a finite
message stream. A Shutdown message, or the end of the stream (the recv
error when the channel closes), drains the batch and stops; a fatal
error from commit_batch stops the loop immediately and is returned. The
pipeline never reads any WatermarkStore. -/
def SequentialPipeline.run (p : Processor) (batch_size now : Nat)
    (st : SeqState) : List IngestionMessage → SeqState × Option String
  | [] => SequentialPipeline.step p batch_size now st .Shutdown
  | .Shutdown :: _ => SequentialPipeline.step p batch_size now st .Shutdown
  | msg :: rest =>
    match SequentialPipeline.step p batch_size now st msg with
    | (st', none) => SequentialPipeline.run p batch_size now st' rest
    | (st', some e) => (st', some e)

/-- The checkpoint sequence numbers delivered before the stream ends or
a Shutdown message arrives, in arrival order. -/
def checkpointSeqsUntilShutdown : List IngestionMessage → List Nat
  | [] => []
  | .Shutdown :: _ => []
  | .Checkpoint cp :: rest =>
    cp.checkpoint_summary.sequence_number ::
      checkpointSeqsUntilShutdown rest
  | _ :: rest => checkpointSeqsUntilShutdown rest

/-- processor.rs lines 170-221: the receive loop of
ConcurrentPipeline::run spawns one task per received Checkpoint and
stops at Shutdown or at the end of the stream; these are the sequence
numbers it spawns tasks for, in spawn order. -/
def ConcurrentPipeline.spawnedSeqs : List IngestionMessage → List Nat
  | [] => []
  | .Shutdown :: _ => []
  | .Checkpoint cp :: rest =>
    cp.checkpoint_summary.sequence_number ::
      ConcurrentPipeline.spawnedSeqs rest
  | _ :: rest => ConcurrentPipeline.spawnedSeqs rest

/-- processor.rs lines 178-198: the body of one spawned task of
ConcurrentPipeline: process, then commit, and only when both succeed the
shared watermark is raised to the checkpoint sequence if that is larger
(the update is performed under the watermark mutex, so it is atomic). -/
def ConcurrentPipeline.taskFinish (p : Processor) (now : Nat)
    (wm : Watermark) (cp : CheckpointData) : Watermark :=
  match p.process cp with
  | .ok processed =>
    match p.commit processed with
    | .ok _ =>
      if cp.checkpoint_summary.sequence_number > wm.checkpoint_sequence
      then
        { wm with
          checkpoint_sequence := cp.checkpoint_summary.sequence_number
          updated_at := now }
      else wm
    | .error _ => wm
  | .error _ => wm

/-- The watermark of a ConcurrentPipeline after its spawned tasks have
completed in some order (the completionOrder list): each completing task
performs its atomic taskFinish update in turn. -/
def ConcurrentPipeline.watermarkAfter (p : Processor) (now : Nat)
    (wm : Watermark) (completionOrder : List CheckpointData) : Watermark :=
  completionOrder.foldl (ConcurrentPipeline.taskFinish p now) wm

/-- processor.rs lines 283-290: PipelineExecutor::wait_all pops tasks
from the end of the vector and awaits each; the first task result that
is an error propagates immediately, leaving the not-yet-popped tasks in
place, neither awaited nor cancelled. The input is the list of task
results in spawn order; the output is the propagated result and the
tasks left unawaited, in spawn order. -/
def PipelineExecutor.waitAllRev :
    List (Except String Unit) →
      Except String Unit × List (Except String Unit)
  | [] => (.ok (), [])
  | t :: rest =>
    match t with
    | .error e => (.error e, rest)
    | .ok _ => PipelineExecutor.waitAllRev rest

/-- processor.rs lines 283-290: PipelineExecutor::wait_all on the task
vector in spawn order. -/
def PipelineExecutor.wait_all (tasks : List (Except String Unit)) :
    Except String Unit × List (Except String Unit) :=
  let r := PipelineExecutor.waitAllRev tasks.reverse
  (r.1, r.2.reverse)

/-- A concrete checkpoint used by witnesses and counterexamples. -/
def mkCp (seq : Nat) : CheckpointData :=
  { checkpoint_summary :=
      { sequence_number := seq
        checkpoint_digest := "digest"
        timestamp_ms := 0
        network_name := "testnet"
        previous_checkpoint_digest := none
        epoch := 1
        reference_gas_price := 1000
        total_transactions := 0
        total_gas_units := 0 }
    checkpoint_contents := { transactions := [], user_signatures := [] }
    transactions := [] }

/-- DataSource whose every checkpoint fails verification. -/
def dsInvalid : DataSource :=
  { get_checkpoint := fun n => .ok (mkCp n)
    verify_checkpoint := fun _ => .ok false }

/-- DataSource whose checkpoint 1 fails with a transport error and whose
other checkpoints fetch and verify normally. -/
def dsFlaky : DataSource :=
  { get_checkpoint := fun n =>
      if n = 1 then .error "boom" else .ok (mkCp n)
    verify_checkpoint := fun _ => .ok true }

/-- A processor that echoes the checkpoint sequence and always commits
successfully. -/
def pEcho : Processor :=
  { process := fun cp =>
      .ok { checkpoint_sequence := cp.checkpoint_summary.sequence_number
            records := []
            metrics := {} }
    commit := fun _ => .ok ()
    name := "P1" }

/-- A processor whose commit always fails. -/
def pFail : Processor :=
  { process := fun cp =>
      .ok { checkpoint_sequence := cp.checkpoint_summary.sequence_number
            records := []
            metrics := {} }
    commit := fun _ => .error "db down"
    name := "P2" }

/-- The sequence numbers of the Checkpoint messages of a stream are
bounded below by w and non-decreasing along the stream. This is how the
Broadcaster delivers checkpoints: within a window they are fetched in
increasing order and successive windows start past the watermark, which
only grows. -/
def SeqChainLB : Nat → List IngestionMessage → Prop
  | _, [] => True
  | w, .Checkpoint cp :: rest =>
      w ≤ cp.checkpoint_summary.sequence_number ∧
        SeqChainLB cp.checkpoint_summary.sequence_number rest
  | w, _ :: rest => SeqChainLB w rest

/-! Helper lemmas shared by several claims. -/

theorem foldlMax_init_le (l : List ProcessedData) (init : Nat) :
    init ≤ l.foldl (fun a d => max a d.checkpoint_sequence) init := by
  induction l generalizing init with
  | nil => exact le_refl _
  | cons hd tl ih =>
    exact le_trans (le_max_left _ _) (ih (max init hd.checkpoint_sequence))

theorem foldlMax_mem_le (l : List ProcessedData) (init : Nat)
    (d : ProcessedData) (hmem : d ∈ l) :
    d.checkpoint_sequence ≤
      l.foldl (fun a x => max a x.checkpoint_sequence) init := by
  induction l generalizing init with
  | nil => cases hmem
  | cons hd tl ih =>
    rcases List.mem_cons.mp hmem with h | h
    · subst h
      exact le_trans (le_max_right _ _)
        (foldlMax_init_le tl (max init d.checkpoint_sequence))
    · exact ih (max init hd.checkpoint_sequence) h

theorem foldlMax_le (l : List ProcessedData) (init c : Nat)
    (h0 : init ≤ c) (hall : ∀ d ∈ l, d.checkpoint_sequence ≤ c) :
    l.foldl (fun a d => max a d.checkpoint_sequence) init ≤ c := by
  induction l generalizing init with
  | nil => exact h0
  | cons hd tl ih =>
    exact ih (max init hd.checkpoint_sequence)
      (max_le h0 (hall hd (List.mem_cons_self hd tl)))
      (fun d hd2 => hall d (List.mem_cons_of_mem _ hd2))

theorem le_batchMaxSeq (l : List ProcessedData) (d : ProcessedData)
    (h : d ∈ l) : d.checkpoint_sequence ≤ batchMaxSeq l :=
  foldlMax_mem_le l 0 d h

theorem batchMaxSeq_le (l : List ProcessedData) (c : Nat)
    (hall : ∀ d ∈ l, d.checkpoint_sequence ≤ c) : batchMaxSeq l ≤ c :=
  foldlMax_le l 0 c (Nat.zero_le c) hall

/-! Claim theorems. -/

/-- C1 counterexample: two pipelines report commits 5 and 3; the claim
requires the Regulator gate to equal the minimum (3), but
Regulator::update_watermark keeps a single maximum, leaving 5. -/
theorem C1_min_watermark_counterexample :
    (((Regulator.new 10).update_watermark 5).update_watermark
        3).high_watermark = 5 ∧
    ¬ (((Regulator.new 10).update_watermark 5).update_watermark
        3).high_watermark = min 5 3 := by
  decide

/-- C1 amended: Regulator::update_watermark ignores pipeline identity and
raises the single shared high_watermark to the maximum of its current
value and the reported sequence; it never decreases and no other field
changes, so the fastest (not the slowest) reported commit gates fetch
progress. -/
theorem C1_update_watermark_max_amended (r : Regulator)
    (checkpoint : Nat) :
    (r.update_watermark checkpoint).high_watermark =
      max r.high_watermark checkpoint ∧
    r.high_watermark ≤ (r.update_watermark checkpoint).high_watermark ∧
    (r.update_watermark checkpoint).latest_checkpoint =
      r.latest_checkpoint ∧
    (r.update_watermark checkpoint).batch_size = r.batch_size := by
  unfold Regulator.update_watermark
  split <;> (simp_all; try omega)

/-- C4: the fetch-window decision of the drive loop produces the window
(low_watermark + 1, min (low_watermark + 1 + batch_size - 1,
latest_available)) exactly when low_watermark + 1 does not exceed
latest_available, and produces no work otherwise. -/
theorem C4_next_window_shape (r : Regulator) :
    (r.high_watermark + 1 ≤ r.latest_checkpoint →
      r.next_window =
        some (r.high_watermark + 1,
          min (r.high_watermark + 1 + r.batch_size - 1)
            r.latest_checkpoint)) ∧
    (r.latest_checkpoint < r.high_watermark + 1 →
      r.next_window = none) := by
  constructor
  · intro h
    have hb : r.has_more_data = true := by
      simp only [Regulator.has_more_data, decide_eq_true_eq]
      omega
    simp [Regulator.next_window, hb, Regulator.get_next_batch]
  · intro h
    have hb : r.has_more_data = false := by
      simp only [Regulator.has_more_data, decide_eq_false_iff_not]
      omega
    simp [Regulator.next_window, hb]

/-- C4 witness: with watermark 0, latest 100 and batch size 10 the first
window is (1, 10). -/
theorem C4_next_window_shape_witness :
    Regulator.next_window
      { high_watermark := 0, latest_checkpoint := 100,
        batch_size := 10 } = some (1, 10) := by
  have h :=
    (C4_next_window_shape
      { high_watermark := 0, latest_checkpoint := 100,
        batch_size := 10 }).1 (by decide)
  simpa using h

/-- C10: the subscriber registry is idempotent and duplicate-free:
registering an already-present id is the identity, both operations
preserve the no-duplicates invariant (which holds for the initial empty
registry), and unregistering removes every occurrence of the id. -/
theorem C10_subscriber_registry_laws :
    (∀ (subs : List String) (id : String), id ∈ subs →
      Broadcaster.register_subscriber subs id = subs) ∧
    (∀ (subs : List String) (id : String), subs.Nodup →
      (Broadcaster.register_subscriber subs id).Nodup) ∧
    (∀ (subs : List String) (id : String), subs.Nodup →
      (Broadcaster.unregister_subscriber subs id).Nodup) ∧
    (∀ (subs : List String) (id : String),
      id ∉ Broadcaster.unregister_subscriber subs id) := by
  refine ⟨?_, ?_, ?_, ?_⟩
  · intro subs id h
    simp [Broadcaster.register_subscriber, List.elem_iff, h]
  · intro subs id h
    by_cases hm : id ∈ subs
    · simp [Broadcaster.register_subscriber, List.elem_iff, hm, h]
    · simp [Broadcaster.register_subscriber, List.elem_iff, hm,
        List.nodup_append, h]
  · intro subs id h
    exact h.filter _
  · intro subs id
    simp [Broadcaster.unregister_subscriber, List.mem_filter]

/-- C10 witness: registering "P1" twice keeps one copy and
unregistering removes it. -/
theorem C10_subscriber_registry_laws_witness :
    Broadcaster.register_subscriber ["P1"] "P1" = ["P1"] ∧
    "P2" ∉ Broadcaster.unregister_subscriber ["P1", "P2"] "P2" :=
  ⟨C10_subscriber_registry_laws.1 ["P1"] "P1" (by decide),
   C10_subscriber_registry_laws.2.2.2 ["P1", "P2"] "P2"⟩

/-- C5 counterexample: for a checkpoint failing verification the fetch
loop publishes nothing at all for that sequence, in particular not the
Error message the claim requires. -/
theorem C5_invalid_error_counterexample :
    Broadcaster.broadcastWindow dsInvalid 1 1 = [] ∧
    IngestionMessage.Error "invalid checkpoint 1" ∉
      Broadcaster.broadcastWindow dsInvalid 1 1 := by
  decide

/-- C5 amended: when verification returns Ok(false) the Broadcaster
publishes no message at all for that sequence: neither a Checkpoint nor
an Error message (the sequence is skipped silently). -/
theorem C5_invalid_silently_skipped_amended (ds : DataSource) (seq : Nat)
    (cp : CheckpointData) (hfetch : ds.get_checkpoint seq = .ok cp)
    (hverify : ds.verify_checkpoint cp = .ok false) :
    Broadcaster.fetchOne ds seq = [] := by
  simp [Broadcaster.fetchOne, hfetch, hverify]

/-- C5 witness: the silent skip at sequence 1 of the all-invalid
source. -/
theorem C5_invalid_silently_skipped_amended_witness :
    Broadcaster.fetchOne dsInvalid 1 = [] :=
  C5_invalid_silently_skipped_amended dsInvalid 1 (mkCp 1) rfl rfl

/-- C3 counterexample: with window (1, 2) the fetch of checkpoint 1
fails, yet the drive loop advances the Regulator watermark to the window
end 2, so no subsequent window contains sequence 1 again: the fetch is
never retried. -/
theorem C3_retry_counterexample :
    (Broadcaster.runStep dsFlaky (.ok 2)
        { high_watermark := 0, latest_checkpoint := 2,
          batch_size := 10 }).2 =
      [IngestionMessage.Error "Failed to fetch checkpoint 1: boom",
       IngestionMessage.Checkpoint (mkCp 2)] ∧
    (Broadcaster.runStep dsFlaky (.ok 2)
        { high_watermark := 0, latest_checkpoint := 2,
          batch_size := 10 }).1.high_watermark = 2 ∧
    ¬ windowContains
        ((Broadcaster.runStep dsFlaky (.ok 2)
            { high_watermark := 0, latest_checkpoint := 2,
              batch_size := 10 }).1.next_window) 1 := by
  refine ⟨by decide, by decide, by decide⟩

/-- C3 amended: on a transport error at a sequence inside the produced
window the Broadcaster publishes Error(msg) and continues, but at the
end of the window the Regulator watermark is advanced to the window end
regardless of the failure, so the window produced next does not contain
the failed sequence: the fetch is not retried. -/
theorem C3_transport_error_not_retried_amended (ds : DataSource)
    (newLatest : Except String Nat) (r : Regulator) (seq : Nat)
    (e : String) (hmore : r.has_more_data = true)
    (hlo : r.get_next_batch.1 ≤ seq) (hhi : seq ≤ r.get_next_batch.2)
    (hfetch : ds.get_checkpoint seq = .error e) :
    IngestionMessage.Error
        ("Failed to fetch checkpoint " ++ toString seq ++ ": " ++ e) ∈
      (Broadcaster.runStep ds newLatest r).2 ∧
    (Broadcaster.runStep ds newLatest r).1.high_watermark =
      r.get_next_batch.2 ∧
    ¬ windowContains
        ((Broadcaster.runStep ds newLatest r).1.next_window) seq := by
  have hlo' : r.high_watermark + 1 ≤ seq := hlo
  have hhi' : seq ≤ r.get_next_batch.2 := hhi
  have hstop_pos : 0 < r.get_next_batch.2 := by omega
  have hrun : Broadcaster.runStep ds newLatest r =
      (r.update_watermark r.get_next_batch.2,
        Broadcaster.broadcastWindow ds r.get_next_batch.1
          r.get_next_batch.2) := by
    simp [Broadcaster.runStep, hmore, hstop_pos]
  have hwm : (r.update_watermark r.get_next_batch.2).high_watermark =
      r.get_next_batch.2 := by
    unfold Regulator.update_watermark
    split
    · rfl
    · omega
  refine ⟨?_, ?_, ?_⟩
  · rw [hrun]
    unfold Broadcaster.broadcastWindow
    refine List.mem_flatMap.mpr ⟨seq, ?_, ?_⟩
    · refine List.mem_range'_1.mpr ⟨hlo, ?_⟩
      omega
    · simp [Broadcaster.fetchOne, hfetch]
  · rw [hrun]
    exact hwm
  · have hgoal : ¬ windowContains
        ((r.update_watermark r.get_next_batch.2).next_window) seq := by
      intro hc
      unfold Regulator.next_window at hc
      by_cases hmd :
          (r.update_watermark r.get_next_batch.2).has_more_data = true
      · rw [if_pos hmd] at hc
        simp only [windowContains] at hc
        have h1 := hc.1
        have h2 : (r.update_watermark
            r.get_next_batch.2).get_next_batch.1 =
            (r.update_watermark r.get_next_batch.2).high_watermark + 1 :=
          rfl
        rw [h2, hwm] at h1
        omega
      · rw [if_neg hmd] at hc
        exact hc
    rw [hrun]
    exact hgoal

/-- C3 witness: the amended behaviour at the flaky source, window
(1, 2), failed sequence 1. -/
theorem C3_transport_error_not_retried_amended_witness :
    IngestionMessage.Error
        ("Failed to fetch checkpoint " ++ toString 1 ++ ": " ++ "boom") ∈
      (Broadcaster.runStep dsFlaky (.ok 2)
          { high_watermark := 0, latest_checkpoint := 2,
            batch_size := 10 }).2 ∧
    (Broadcaster.runStep dsFlaky (.ok 2)
        { high_watermark := 0, latest_checkpoint := 2,
          batch_size := 10 }).1.high_watermark =
      (Regulator.get_next_batch
        { high_watermark := 0, latest_checkpoint := 2,
          batch_size := 10 }).2 :=
  ⟨(C3_transport_error_not_retried_amended dsFlaky (.ok 2)
      { high_watermark := 0, latest_checkpoint := 2, batch_size := 10 }
      1 "boom" (by decide) (by decide) (by decide) rfl).1,
   (C3_transport_error_not_retried_amended dsFlaky (.ok 2)
      { high_watermark := 0, latest_checkpoint := 2, batch_size := 10 }
      1 "boom" (by decide) (by decide) (by decide) rfl).2.1⟩

theorem waitAllRev_all_ok (l : List (Except String Unit))
    (h : ∀ t ∈ l, t = .ok ()) :
    PipelineExecutor.waitAllRev l = (.ok (), []) := by
  induction l with
  | nil => rfl
  | cons t rest ih =>
    have ht := h t (List.mem_cons_self t rest)
    subst ht
    simpa [PipelineExecutor.waitAllRev] using
      ih (fun x hx => h x (List.mem_cons_of_mem _ hx))

theorem waitAllRev_first_error (l rest : List (Except String Unit))
    (e : String) (h : ∀ t ∈ l, t = .ok ()) :
    PipelineExecutor.waitAllRev (l ++ .error e :: rest) =
      (.error e, rest) := by
  induction l with
  | nil => rfl
  | cons t tl ih =>
    have ht := h t (List.mem_cons_self t tl)
    subst ht
    simpa [PipelineExecutor.waitAllRev] using
      ih (fun x hx => h x (List.mem_cons_of_mem _ hx))

/-- C9 counterexample: two spawned tasks, the first still pending with
result Ok, the second (popped first) failing. wait_all propagates the
error immediately and leaves the first task in the vector: it is
neither awaited nor cancelled, so wait_all did not block until every
task returned. -/
theorem C9_wait_all_counterexample :
    PipelineExecutor.wait_all [Except.ok (), Except.error "fatal"] =
      (Except.error "fatal", [Except.ok ()]) ∧
    (PipelineExecutor.wait_all
        [Except.ok (), Except.error "fatal"]).2 ≠ [] :=
  ⟨rfl, fun hc => List.cons_ne_nil _ _ hc⟩

/-- C9 amended: wait_all awaits the tasks in reverse spawn order; when
every task returns Ok it returns Ok after awaiting them all, and when a
task returns an error the error propagates immediately, leaving all
earlier-spawned tasks unawaited and uncancelled in the task vector. -/
theorem C9_wait_all_early_error_amended :
    (∀ (tasks : List (Except String Unit)),
        (∀ t ∈ tasks, t = .ok ()) →
        PipelineExecutor.wait_all tasks = (.ok (), [])) ∧
    (∀ (pre post : List (Except String Unit)) (e : String),
        (∀ t ∈ post, t = .ok ()) →
        PipelineExecutor.wait_all (pre ++ .error e :: post) =
          (.error e, pre)) := by
  constructor
  · intro tasks h
    unfold PipelineExecutor.wait_all
    rw [waitAllRev_all_ok tasks.reverse
      (fun t ht => h t (List.mem_reverse.mp ht))]
    rfl
  · intro pre post e h
    have hrev : (pre ++ .error e :: post).reverse =
        post.reverse ++ .error e :: pre.reverse := by
      simp
    unfold PipelineExecutor.wait_all
    rw [hrev, waitAllRev_first_error post.reverse pre.reverse e
      (fun t ht => h t (List.mem_reverse.mp ht))]
    simp

/-- C9 witness: all-Ok tasks are all awaited; an error in the last
spawned task leaves the first task unawaited. -/
theorem C9_wait_all_early_error_amended_witness :
    PipelineExecutor.wait_all [Except.ok (), Except.ok ()] =
      (.ok (), []) ∧
    PipelineExecutor.wait_all
        ([Except.ok ()] ++ Except.error "boom" :: []) =
      (.error "boom", [Except.ok ()]) :=
  ⟨C9_wait_all_early_error_amended.1 [Except.ok (), Except.ok ()]
      (by intro t ht; rcases List.mem_cons.mp ht with rfl | ht2
          · rfl
          · rcases List.mem_cons.mp ht2 with rfl | ht3
            · rfl
            · cases ht3),
   C9_wait_all_early_error_amended.2 [Except.ok ()] [] "boom"
      (by intro t ht; cases ht)⟩

theorem commit_batch_error_eq (p : Processor) (now : Nat)
    (st : SeqState) (seq : Nat) (e : String)
    (h : p.commit (combineBatch st.batch seq) = .error e) :
    SequentialPipeline.commit_batch p now st seq =
      ({ st with commitAttempts := st.commitAttempts ++ [seq] },
        some e) := by
  simp only [SequentialPipeline.commit_batch]
  rw [h]

theorem commit_batch_ok_eq (p : Processor) (now : Nat) (st : SeqState)
    (seq : Nat) (h : p.commit (combineBatch st.batch seq) = .ok ()) :
    SequentialPipeline.commit_batch p now st seq =
      ({ st with
          batch := []
          watermark := { st.watermark with
            checkpoint_sequence := seq, updated_at := now }
          commitAttempts := st.commitAttempts ++ [seq]
          commits := st.commits ++ [combineBatch st.batch seq] },
        none) := by
  simp only [SequentialPipeline.commit_batch]
  rw [h]

theorem commit_batch_processedCalls (p : Processor) (now : Nat)
    (st : SeqState) (seq : Nat) :
    ((SequentialPipeline.commit_batch p now st seq).1).processedCalls =
      st.processedCalls := by
  simp only [SequentialPipeline.commit_batch]
  split <;> rfl

/-- C7 counterexample: with an always-failing commit and batch size 1,
the first commit error immediately terminates the run with that error
after exactly one attempt (not up to 6), leaving the second message
unprocessed; the watermark is unchanged. -/
theorem C7_no_retry_counterexample :
    (SequentialPipeline.run pFail 1 0 {}
        [IngestionMessage.Checkpoint (mkCp 1),
         IngestionMessage.Checkpoint (mkCp 2)]).2 = some "db down" ∧
    (SequentialPipeline.run pFail 1 0 {}
        [IngestionMessage.Checkpoint (mkCp 1),
         IngestionMessage.Checkpoint (mkCp 2)]).1.commitAttempts =
      [1] ∧
    Watermark.checkpoint_sequence
      ((SequentialPipeline.run pFail 1 0 {}
        [IngestionMessage.Checkpoint (mkCp 1),
         IngestionMessage.Checkpoint (mkCp 2)]).1.watermark) = 0 ∧
    (1 : Nat) < 6 := by
  refine ⟨by decide, by decide, by decide, by decide⟩

/-- C7 amended: a commit error is not retried: commit_batch makes
exactly one attempt, leaves batch and watermark untouched, and returns
the error, and run propagates any error from a step immediately as a
fatal result, terminating the pipeline. -/
theorem C7_commit_error_fatal_amended :
    (∀ (p : Processor) (now : Nat) (st : SeqState) (sequence : Nat)
        (e : String),
        p.commit (combineBatch st.batch sequence) = .error e →
        SequentialPipeline.commit_batch p now st sequence =
          ({ st with
              commitAttempts := st.commitAttempts ++ [sequence] },
            some e)) ∧
    (∀ (p : Processor) (batch_size now : Nat) (st st' : SeqState)
        (e : String) (msg : IngestionMessage)
        (rest : List IngestionMessage),
        SequentialPipeline.step p batch_size now st msg =
          (st', some e) →
        SequentialPipeline.run p batch_size now st (msg :: rest) =
          (st', some e)) := by
  constructor
  · intro p now st sequence e h
    exact commit_batch_error_eq p now st sequence e h
  · intro p batch_size now st st' e msg rest h
    cases msg <;> simp [SequentialPipeline.run, h]

/-- C7 witness: the no-retry behaviour at the always-failing processor
with an empty batch, and the immediate fatal termination of run. -/
theorem C7_commit_error_fatal_amended_witness :
    SequentialPipeline.commit_batch pFail 0 {} 1 =
      ({ ({} : SeqState) with
          commitAttempts := ([] : List Nat) ++ [1] }, some "db down") ∧
    SequentialPipeline.run pFail 1 0 {}
        (IngestionMessage.Checkpoint (mkCp 1) ::
          [IngestionMessage.Checkpoint (mkCp 2)]) =
      ((SequentialPipeline.step pFail 1 0 {}
          (IngestionMessage.Checkpoint (mkCp 1))).1, some "db down") :=
  ⟨C7_commit_error_fatal_amended.1 pFail 0 {} 1 "db down" rfl,
   C7_commit_error_fatal_amended.2 pFail 1 0 {}
     (SequentialPipeline.step pFail 1 0 {}
       (IngestionMessage.Checkpoint (mkCp 1))).1 "db down"
     (IngestionMessage.Checkpoint (mkCp 1))
     [IngestionMessage.Checkpoint (mkCp 2)] (by decide)⟩

/-- C2 counterexample: the watermark store holds 5 for pipeline P1, yet
the sequential pipeline passes the incoming checkpoint with sequence
3 ≤ 5 to process (the pipelines never read the store, so there is no
catch-up skip and the first processed sequence is not greater than
the stored watermark). -/
theorem C2_catchup_skip_counterexample :
    InMemoryWatermarkStore.get_watermark
        (InMemoryWatermarkStore.update_watermark [] "P1" 5) "P1" = 5 ∧
    5 > 0 ∧
    (SequentialPipeline.run pEcho 3 0 {}
        [IngestionMessage.Checkpoint (mkCp 3)]).1.processedCalls =
      [3] ∧
    ¬ (3 : Nat) > 5 := by
  refine ⟨by decide, by decide, by decide, by decide⟩

theorem run_nil (p : Processor) (batch_size now : Nat) (st : SeqState) :
    SequentialPipeline.run p batch_size now st [] =
      SequentialPipeline.step p batch_size now st .Shutdown := by
  simp [SequentialPipeline.run]

theorem run_shutdown_cons (p : Processor) (batch_size now : Nat)
    (st : SeqState) (rest : List IngestionMessage) :
    SequentialPipeline.run p batch_size now st (.Shutdown :: rest) =
      SequentialPipeline.step p batch_size now st .Shutdown := by
  simp [SequentialPipeline.run]

theorem run_cons (p : Processor) (batch_size now : Nat) (st : SeqState)
    (msg : IngestionMessage) (rest : List IngestionMessage)
    (hns : msg ≠ .Shutdown) :
    SequentialPipeline.run p batch_size now st (msg :: rest) =
      match SequentialPipeline.step p batch_size now st msg with
      | (st', none) => SequentialPipeline.run p batch_size now st' rest
      | (st', some e) => (st', some e) := by
  cases msg
  case Shutdown => exact absurd rfl hns
  all_goals simp [SequentialPipeline.run]

theorem run_cons_ok (p : Processor) (batch_size now : Nat)
    (st st' : SeqState) (msg : IngestionMessage)
    (rest : List IngestionMessage) (hns : msg ≠ .Shutdown)
    (hstep : SequentialPipeline.step p batch_size now st msg =
      (st', none)) :
    SequentialPipeline.run p batch_size now st (msg :: rest) =
      SequentialPipeline.run p batch_size now st' rest := by
  rw [run_cons p batch_size now st msg rest hns, hstep]

theorem run_cons_err (p : Processor) (batch_size now : Nat)
    (st st' : SeqState) (e : String) (msg : IngestionMessage)
    (rest : List IngestionMessage) (hns : msg ≠ .Shutdown)
    (hstep : SequentialPipeline.step p batch_size now st msg =
      (st', some e)) :
    SequentialPipeline.run p batch_size now st (msg :: rest) =
      (st', some e) := by
  rw [run_cons p batch_size now st msg rest hns, hstep]

theorem step_processedCalls (p : Processor) (batch_size now : Nat)
    (st : SeqState) (msg : IngestionMessage) :
    (SequentialPipeline.step p batch_size now st msg).1.processedCalls =
      st.processedCalls ++
        (match msg with
         | .Checkpoint cp => [cp.checkpoint_summary.sequence_number]
         | _ => []) := by
  cases msg with
  | Checkpoint cp =>
    simp only [SequentialPipeline.step]
    split
    · split
      · rw [commit_batch_processedCalls]
      · rfl
    · rfl
  | Error e => simp [SequentialPipeline.step]
  | Paused =>
    simp only [SequentialPipeline.step]
    split
    · simp
    · rw [commit_batch_processedCalls]
      simp
  | Resumed => simp [SequentialPipeline.step]
  | Shutdown =>
    simp only [SequentialPipeline.step]
    split
    · simp
    · rw [commit_batch_processedCalls]
      simp

/-- C2 amended: neither pipeline mode consults a WatermarkStore and
there is no catch-up skip: over any stream, the sequential run passes
every Checkpoint arriving before Shutdown to process (whatever any
stored watermark is), and the concurrent loop spawns a process task for
exactly the same checkpoints. -/
theorem C2_no_catchup_skip_amended :
    (∀ (p : Processor) (batch_size now : Nat) (st fin : SeqState)
        (msgs : List IngestionMessage),
        SequentialPipeline.run p batch_size now st msgs = (fin, none) →
        fin.processedCalls =
          st.processedCalls ++ checkpointSeqsUntilShutdown msgs) ∧
    (∀ msgs : List IngestionMessage,
        ConcurrentPipeline.spawnedSeqs msgs =
          checkpointSeqsUntilShutdown msgs) := by
  constructor
  · intro p batch_size now st fin msgs
    induction msgs generalizing st with
    | nil =>
      intro h
      rw [run_nil] at h
      have hfin :
          fin = (SequentialPipeline.step p batch_size now st
            .Shutdown).1 := by
        rw [h]
      rw [hfin, step_processedCalls]
      simp [checkpointSeqsUntilShutdown]
    | cons msg rest ih =>
      intro h
      by_cases hs : msg = .Shutdown
      · subst hs
        rw [run_shutdown_cons] at h
        have hfin :
            fin = (SequentialPipeline.step p batch_size now st
              .Shutdown).1 := by
          rw [h]
        rw [hfin, step_processedCalls]
        simp [checkpointSeqsUntilShutdown]
      · rcases hstep : SequentialPipeline.step p batch_size now st msg
          with ⟨st', r⟩
        cases r with
        | some e =>
          rw [run_cons_err p batch_size now st st' e msg rest hs
            hstep] at h
          exact absurd (congrArg Prod.snd h) (by simp)
        | none =>
          rw [run_cons_ok p batch_size now st st' msg rest hs
            hstep] at h
          have hrec := ih st' h
          have hpc := step_processedCalls p batch_size now st msg
          rw [hstep] at hpc
          rw [hrec, hpc, List.append_assoc]
          congr 1
          cases msg <;>
            first
              | exact absurd rfl hs
              | simp [checkpointSeqsUntilShutdown]
  · intro msgs
    induction msgs with
    | nil => rfl
    | cons msg rest ih =>
      cases msg <;>
        simp [ConcurrentPipeline.spawnedSeqs,
          checkpointSeqsUntilShutdown, ih]

/-- C2 witness: the run over a single checkpoint with sequence 3
processes exactly sequence 3. -/
theorem C2_no_catchup_skip_amended_witness :
    (SequentialPipeline.run pEcho 3 0 {}
        [IngestionMessage.Checkpoint (mkCp 3)]).1.processedCalls =
      ({} : SeqState).processedCalls ++
        checkpointSeqsUntilShutdown
          [IngestionMessage.Checkpoint (mkCp 3)] :=
  C2_no_catchup_skip_amended.1 pEcho 3 0 {}
    (SequentialPipeline.run pEcho 3 0 {}
      [IngestionMessage.Checkpoint (mkCp 3)]).1
    [IngestionMessage.Checkpoint (mkCp 3)] (by decide)

/-- C6 counterexample: with batch size 2 and checkpoints arriving with
sequences 5 then 3, the size-triggered commit uses the sequence of the
checkpoint that triggered it (3), not the maximum sequence in the batch
(5). -/
theorem C6_commit_seq_counterexample :
    ((SequentialPipeline.run pEcho 2 0 {}
        [IngestionMessage.Checkpoint (mkCp 5),
         IngestionMessage.Checkpoint (mkCp 3)]).1.commits).map
      (fun d => d.checkpoint_sequence) = [3] ∧
    (3 : Nat) ≠ max 5 3 := by
  refine ⟨by decide, by decide⟩

/-- C6 amended: a successful commit commits the combined batch (records
concatenated in processed order, source sequence as given), sets the
in-memory pipeline watermark to that sequence and clears the batch; no
WatermarkStore is written and no Regulator is notified. The size-N
trigger commits under the sequence of the checkpoint that triggered it
(which equals the batch maximum only when sequences arrive in
non-decreasing order, as the Broadcaster produces them), while the
Paused/Shutdown drain commits under the batch maximum. -/
theorem C6_ordered_commit_amended :
    (∀ (p : Processor) (now : Nat) (st : SeqState) (seq : Nat),
        p.commit (combineBatch st.batch seq) = .ok () →
        SequentialPipeline.commit_batch p now st seq =
          ({ st with
              batch := []
              watermark := { st.watermark with
                checkpoint_sequence := seq, updated_at := now }
              commitAttempts := st.commitAttempts ++ [seq]
              commits := st.commits ++ [combineBatch st.batch seq] },
            none)) ∧
    (∀ (batch : List ProcessedData) (seq : Nat),
        (combineBatch batch seq).records =
          batch.flatMap (fun d => d.records) ∧
        (combineBatch batch seq).checkpoint_sequence = seq) ∧
    (∀ (p : Processor) (batch_size now : Nat) (st : SeqState)
        (cp : CheckpointData) (processed : ProcessedData),
        p.process cp = .ok processed →
        batch_size ≤ (st.batch ++ [processed]).length →
        SequentialPipeline.step p batch_size now st (.Checkpoint cp) =
          SequentialPipeline.commit_batch p now
            { st with
                batch := st.batch ++ [processed]
                total_metrics :=
                  st.total_metrics.accumulate processed.metrics
                processedCalls := st.processedCalls ++
                  [cp.checkpoint_summary.sequence_number] }
            cp.checkpoint_summary.sequence_number) ∧
    (∀ (p : Processor) (batch_size now : Nat) (st : SeqState),
        st.batch ≠ [] →
        SequentialPipeline.step p batch_size now st .Paused =
          SequentialPipeline.commit_batch p now st
            (batchMaxSeq st.batch) ∧
        SequentialPipeline.step p batch_size now st .Shutdown =
          SequentialPipeline.commit_batch p now st
            (batchMaxSeq st.batch)) ∧
    (∀ (st : SeqState) (cp : CheckpointData)
        (processed : ProcessedData),
        processed.checkpoint_sequence =
          cp.checkpoint_summary.sequence_number →
        (∀ d ∈ st.batch, d.checkpoint_sequence ≤
          cp.checkpoint_summary.sequence_number) →
        batchMaxSeq (st.batch ++ [processed]) =
          cp.checkpoint_summary.sequence_number) := by
  refine ⟨?_, ?_, ?_, ?_, ?_⟩
  · intro p now st seq h
    exact commit_batch_ok_eq p now st seq h
  · intro batch seq
    exact ⟨rfl, rfl⟩
  · intro p batch_size now st cp processed hp hfull
    have hfull2 : batch_size ≤ st.batch.length + 1 := by
      simpa using hfull
    simp [SequentialPipeline.step, hp, hfull2]
  · intro p batch_size now st h
    have hne : st.batch.isEmpty = false := by
      cases hb : st.batch with
      | nil => exact absurd hb h
      | cons a l => rfl
    constructor <;> simp [SequentialPipeline.step, hne]
  · intro st cp processed hps hall
    have hsplit : batchMaxSeq (st.batch ++ [processed]) =
        max (batchMaxSeq st.batch) processed.checkpoint_sequence := by
      unfold batchMaxSeq
      rw [List.foldl_append]
      rfl
    rw [hsplit, hps]
    exact Nat.max_eq_right (batchMaxSeq_le st.batch _ hall)

/-- C6 witness: a successful commit of the empty batch under sequence 4
at wall time 7. -/
theorem C6_ordered_commit_amended_witness :
    SequentialPipeline.commit_batch pEcho 7 {} 4 =
      ({ ({} : SeqState) with
          batch := []
          watermark := { ({} : SeqState).watermark with
            checkpoint_sequence := 4, updated_at := 7 }
          commitAttempts := ([] : List Nat) ++ [4]
          commits := ([] : List ProcessedData) ++ [combineBatch [] 4] },
        none) :=
  C6_ordered_commit_amended.1 pEcho 7 {} 4 rfl


theorem taskFinish_wm_le (p : Processor) (now : Nat) (wm : Watermark)
    (cp : CheckpointData) :
    wm.checkpoint_sequence ≤
      Watermark.checkpoint_sequence
        (ConcurrentPipeline.taskFinish p now wm cp) := by
  cases hp : p.process cp with
  | error e => simp [ConcurrentPipeline.taskFinish, hp]
  | ok processed =>
    cases hc : p.commit processed with
    | error e => simp [ConcurrentPipeline.taskFinish, hp, hc]
    | ok u =>
      simp only [ConcurrentPipeline.taskFinish, hp, hc]
      split
      · rename_i hgt
        exact le_of_lt hgt
      · exact le_refl _

theorem concWm_mono (p : Processor) (now : Nat)
    (order : List CheckpointData) (wm : Watermark) :
    wm.checkpoint_sequence ≤
      Watermark.checkpoint_sequence
        (ConcurrentPipeline.watermarkAfter p now wm order) := by
  induction order generalizing wm with
  | nil => exact le_refl _
  | cons cp rest ih =>
    exact le_trans (taskFinish_wm_le p now wm cp)
      (ih (ConcurrentPipeline.taskFinish p now wm cp))

theorem drain_step_wm_le (p : Processor) (batch_size now : Nat)
    (st : SeqState) (msg : IngestionMessage)
    (hmsg : msg = .Paused ∨ msg = .Shutdown)
    (hbatch : ∀ d ∈ st.batch,
      st.watermark.checkpoint_sequence ≤ d.checkpoint_sequence) :
    st.watermark.checkpoint_sequence ≤
      (SequentialPipeline.step p batch_size now st
        msg).1.watermark.checkpoint_sequence := by
  have hstep : SequentialPipeline.step p batch_size now st msg =
      (if st.batch.isEmpty then (st, none)
       else SequentialPipeline.commit_batch p now st
         (batchMaxSeq st.batch)) := by
    rcases hmsg with rfl | rfl <;> rfl
  rw [hstep]
  by_cases hemp : st.batch.isEmpty = true
  · rw [if_pos hemp]
  · rw [if_neg hemp]
    rcases hc : p.commit (combineBatch st.batch (batchMaxSeq st.batch))
      with e | u
    · rw [commit_batch_error_eq p now st (batchMaxSeq st.batch) e hc]
    · cases u
      rw [commit_batch_ok_eq p now st (batchMaxSeq st.batch) hc]
      obtain ⟨d, hd⟩ : ∃ d, d ∈ st.batch := by
        cases hb : st.batch with
        | nil => rw [hb] at hemp; exact absurd rfl hemp
        | cons a l => exact ⟨a, List.mem_cons_self a l⟩
      exact le_trans (hbatch d hd) (le_batchMaxSeq st.batch d hd)

theorem seqWm_mono_aux (p : Processor) (batch_size now : Nat)
    (hfaith : ∀ cp d, p.process cp = Except.ok d →
      d.checkpoint_sequence = cp.checkpoint_summary.sequence_number) :
    ∀ (msgs : List IngestionMessage) (w : Nat) (st : SeqState),
      SeqChainLB w msgs →
      st.watermark.checkpoint_sequence ≤ w →
      (∀ d ∈ st.batch,
        st.watermark.checkpoint_sequence ≤ d.checkpoint_sequence ∧
          d.checkpoint_sequence ≤ w) →
      st.watermark.checkpoint_sequence ≤
        (SequentialPipeline.run p batch_size now st
          msgs).1.watermark.checkpoint_sequence := by
  intro msgs
  induction msgs with
  | nil =>
    intro w st hchain hw hbatch
    rw [run_nil]
    exact drain_step_wm_le p batch_size now st .Shutdown (Or.inr rfl)
      (fun d hd => (hbatch d hd).1)
  | cons msg rest ih =>
    intro w st hchain hw hbatch
    cases msg with
    | Shutdown =>
      rw [run_shutdown_cons]
      exact drain_step_wm_le p batch_size now st .Shutdown (Or.inr rfl)
        (fun d hd => (hbatch d hd).1)
    | Error e =>
      have hstep : SequentialPipeline.step p batch_size now st
          (.Error e) = (st, none) := rfl
      rw [run_cons_ok p batch_size now st st (.Error e) rest
        (fun hh => nomatch hh) hstep]
      exact ih w st hchain hw hbatch
    | Resumed =>
      have hstep : SequentialPipeline.step p batch_size now st
          .Resumed = (st, none) := rfl
      rw [run_cons_ok p batch_size now st st .Resumed rest
        (fun hh => nomatch hh) hstep]
      exact ih w st hchain hw hbatch
    | Paused =>
      have hchain' : SeqChainLB w rest := hchain
      by_cases hemp : st.batch.isEmpty = true
      · have hstep : SequentialPipeline.step p batch_size now st
            .Paused = (st, none) := by
          simp [SequentialPipeline.step, hemp]
        rw [run_cons_ok p batch_size now st st .Paused rest
          (fun hh => nomatch hh) hstep]
        exact ih w st hchain' hw hbatch
      · have hstep0 : SequentialPipeline.step p batch_size now st
            .Paused = SequentialPipeline.commit_batch p now st
              (batchMaxSeq st.batch) := by
          simp [SequentialPipeline.step, hemp]
        rcases hc : p.commit
            (combineBatch st.batch (batchMaxSeq st.batch)) with e | u
        · have hstep2 := hstep0.trans
            (commit_batch_error_eq p now st (batchMaxSeq st.batch) e hc)
          rw [run_cons_err p batch_size now st _ e .Paused rest
            (fun hh => nomatch hh) hstep2]
        · cases u
          have hstep2 := hstep0.trans
            (commit_batch_ok_eq p now st (batchMaxSeq st.batch) hc)
          rw [run_cons_ok p batch_size now st _ .Paused rest
            (fun hh => nomatch hh) hstep2]
          obtain ⟨d, hd⟩ : ∃ d, d ∈ st.batch := by
            cases hb : st.batch with
            | nil => rw [hb] at hemp; exact absurd rfl hemp
            | cons a l => exact ⟨a, List.mem_cons_self a l⟩
          refine le_trans
            (le_trans (hbatch d hd).1 (le_batchMaxSeq st.batch d hd))
            (ih w
              { st with
                  batch := []
                  watermark := { st.watermark with
                    checkpoint_sequence := batchMaxSeq st.batch,
                    updated_at := now }
                  commitAttempts :=
                    st.commitAttempts ++ [batchMaxSeq st.batch]
                  commits := st.commits ++
                    [combineBatch st.batch (batchMaxSeq st.batch)] }
              hchain' ?_ ?_)
          · exact batchMaxSeq_le st.batch w
              (fun x hx => (hbatch x hx).2)
          · intro x hx
            exact absurd hx (List.not_mem_nil x)
    | Checkpoint cp =>
      have hwcp : w ≤ cp.checkpoint_summary.sequence_number :=
        hchain.1
      have hchain' : SeqChainLB cp.checkpoint_summary.sequence_number
          rest := hchain.2
      rcases hp : p.process cp with e | processed
      · have hstep : SequentialPipeline.step p batch_size now st
            (.Checkpoint cp) =
            ({ st with processedCalls := st.processedCalls ++
                [cp.checkpoint_summary.sequence_number] }, none) := by
          simp [SequentialPipeline.step, hp]
        rw [run_cons_ok p batch_size now st _ (.Checkpoint cp) rest
          (fun hh => nomatch hh) hstep]
        refine ih cp.checkpoint_summary.sequence_number
          { st with processedCalls := st.processedCalls ++
              [cp.checkpoint_summary.sequence_number] }
          hchain' (le_trans hw hwcp) ?_
        intro d hd
        exact ⟨(hbatch d hd).1, le_trans (hbatch d hd).2 hwcp⟩
      · have hps := hfaith cp processed hp
        by_cases hfull : batch_size ≤ st.batch.length + 1
        · have hstep0 : SequentialPipeline.step p batch_size now st
              (.Checkpoint cp) =
              SequentialPipeline.commit_batch p now
                { st with
                    batch := st.batch ++ [processed]
                    total_metrics :=
                      st.total_metrics.accumulate processed.metrics
                    processedCalls := st.processedCalls ++
                      [cp.checkpoint_summary.sequence_number] }
                cp.checkpoint_summary.sequence_number := by
            simp [SequentialPipeline.step, hp, hfull]
          rcases hc : p.commit
              (combineBatch (st.batch ++ [processed])
                cp.checkpoint_summary.sequence_number) with e | u
          · have hstep2 := hstep0.trans
              (commit_batch_error_eq p now _ _ e hc)
            rw [run_cons_err p batch_size now st _ e (.Checkpoint cp)
              rest (fun hh => nomatch hh) hstep2]
          · cases u
            have hstep2 := hstep0.trans
              (commit_batch_ok_eq p now _ _ hc)
            rw [run_cons_ok p batch_size now st _ (.Checkpoint cp)
              rest (fun hh => nomatch hh) hstep2]
            refine le_trans (le_trans hw hwcp)
              (ih cp.checkpoint_summary.sequence_number
                { st with
                    batch := []
                    watermark := { st.watermark with
                      checkpoint_sequence :=
                        cp.checkpoint_summary.sequence_number,
                      updated_at := now }
                    total_metrics :=
                      st.total_metrics.accumulate processed.metrics
                    processedCalls := st.processedCalls ++
                      [cp.checkpoint_summary.sequence_number]
                    commitAttempts := st.commitAttempts ++
                      [cp.checkpoint_summary.sequence_number]
                    commits := st.commits ++
                      [combineBatch (st.batch ++ [processed])
                        cp.checkpoint_summary.sequence_number] }
                hchain' (le_refl _) ?_)
            intro x hx
            exact absurd hx (List.not_mem_nil x)
        · have hstep : SequentialPipeline.step p batch_size now st
              (.Checkpoint cp) =
              ({ st with
                  batch := st.batch ++ [processed]
                  total_metrics :=
                    st.total_metrics.accumulate processed.metrics
                  processedCalls := st.processedCalls ++
                    [cp.checkpoint_summary.sequence_number] },
                none) := by
            simp [SequentialPipeline.step, hp, hfull]
          rw [run_cons_ok p batch_size now st _ (.Checkpoint cp) rest
            (fun hh => nomatch hh) hstep]
          refine ih cp.checkpoint_summary.sequence_number
            { st with
                batch := st.batch ++ [processed]
                total_metrics :=
                  st.total_metrics.accumulate processed.metrics
                processedCalls := st.processedCalls ++
                  [cp.checkpoint_summary.sequence_number] }
            hchain' (le_trans hw hwcp) ?_
          intro d hd
          rcases List.mem_append.mp hd with hold | hnew
          · exact ⟨(hbatch d hold).1,
              le_trans (hbatch d hold).2 hwcp⟩
          · rcases List.mem_singleton.mp hnew with rfl
            rw [hps]
            exact ⟨le_trans hw hwcp, le_refl _⟩

/-- C8: the watermark sequence of a pipeline is monotonically
non-decreasing. For the sequential pipeline this holds over any stream
whose checkpoint sequences are non-decreasing (as the Broadcaster
delivers them) and any processor that stamps its output with the
checkpoint sequence; for the concurrent pipeline the guarded
max-update makes it hold for every completion order of the spawned
tasks. Messages that do not commit (Error, Resumed, failed process)
leave the watermark unchanged. -/
theorem C8_watermark_monotone :
    (∀ (p : Processor) (batch_size now w : Nat) (st : SeqState)
        (msgs : List IngestionMessage),
        (∀ cp d, p.process cp = Except.ok d →
          d.checkpoint_sequence =
            cp.checkpoint_summary.sequence_number) →
        SeqChainLB w msgs →
        st.watermark.checkpoint_sequence ≤ w →
        (∀ d ∈ st.batch,
          st.watermark.checkpoint_sequence ≤ d.checkpoint_sequence ∧
            d.checkpoint_sequence ≤ w) →
        st.watermark.checkpoint_sequence ≤
          (SequentialPipeline.run p batch_size now st
            msgs).1.watermark.checkpoint_sequence) ∧
    (∀ (p : Processor) (now : Nat) (wm : Watermark)
        (order : List CheckpointData),
        wm.checkpoint_sequence ≤
          Watermark.checkpoint_sequence
            (ConcurrentPipeline.watermarkAfter p now wm order)) ∧
    (∀ (p : Processor) (batch_size now : Nat) (st : SeqState)
        (e : String),
        (SequentialPipeline.step p batch_size now st
          (.Error e)).1.watermark = st.watermark ∧
        (SequentialPipeline.step p batch_size now st
          .Resumed).1.watermark = st.watermark) ∧
    (∀ (p : Processor) (batch_size now : Nat) (st : SeqState)
        (cp : CheckpointData) (e : String),
        p.process cp = .error e →
        (SequentialPipeline.step p batch_size now st
          (.Checkpoint cp)).1.watermark = st.watermark) := by
  refine ⟨?_, ?_, ?_, ?_⟩
  · intro p batch_size now w st msgs hfaith hchain hw hbatch
    exact seqWm_mono_aux p batch_size now hfaith msgs w st hchain hw
      hbatch
  · intro p now wm order
    exact concWm_mono p now order wm
  · intro p batch_size now st e
    exact ⟨rfl, rfl⟩
  · intro p batch_size now st cp e h
    simp [SequentialPipeline.step, h]

/-- C8 witness: the echo processor over the single-checkpoint stream
with sequence 1, and one concurrent completion. -/
theorem C8_watermark_monotone_witness :
    ({} : SeqState).watermark.checkpoint_sequence ≤
      (SequentialPipeline.run pEcho 1 0 {}
        [IngestionMessage.Checkpoint
          (mkCp 1)]).1.watermark.checkpoint_sequence ∧
    ({} : Watermark).checkpoint_sequence ≤
      Watermark.checkpoint_sequence
        (ConcurrentPipeline.watermarkAfter pEcho 0 {} [mkCp 1]) :=
  ⟨C8_watermark_monotone.1 pEcho 1 0 0 {}
      [IngestionMessage.Checkpoint (mkCp 1)]
      (fun cp d h => by cases h; rfl)
      ⟨Nat.zero_le _, trivial⟩ (le_refl _)
      (fun d hd => absurd hd (List.not_mem_nil d)),
   C8_watermark_monotone.2.1 pEcho 0 {} [mkCp 1]⟩

end CrozzIndexer
